import Mathlib

/-!
Shallow embedding of the in-memory multi-currency bank from `src/main.rs`.

Modelling conventions:
* `f64` monetary amounts are modelled as `Rat` (exact arithmetic); the spec
  flags the floating-point representation as incidental, not behaviour to
  preserve.
* `HashMap<K, V>` is modelled as an association list `List (K × V)` with
  `mapLookup` / `mapInsert` (insert replaces an existing binding in place,
  `entry(..).or_insert(..)` is `getD` plus `mapInsert`).
* `u32` account ids are modelled as `Nat` (no operation here can overflow the
  id counter in any behaviour the claims mention).
* `DateTime<Utc>` timestamps are not modelled: no claim mentions them and the
  engine never branches on them.
* Rust methods taking `&mut self` become functions `Bank → … → α × Bank`
  returning the possibly-mutated bank alongside the result, so that claims
  about "no mutation on error" are faithful to the early-`return` structure
  of the source. `&self` methods return just the result.
* `Result<T, String>` becomes `Except String T`, with the exact (Turkish)
  message strings of the source.
-/

namespace BankEngine

/-- `Currency` struct: code, display name, symbol (main.rs lines 7-12). -/
structure Currency where
  code : String
  name : String
  symbol : String
deriving DecidableEq, Repr

/-- `Transaction` struct (main.rs lines 14-21), minus the unmodelled
timestamp: a type tag string, a signed amount, the resulting balance, and the
currency used. -/
structure Transaction where
  transaction_type : String
  amount : Rat
  balance : Rat
  currency : Currency
deriving DecidableEq, Repr

/-- `Account` struct (main.rs lines 23-29). -/
structure Account where
  id : Nat
  owner : String
  balances : List (String × Rat)
  pin : String
  transactions : List Transaction
deriving DecidableEq, Repr

/-- `Bank` struct (main.rs lines 31-35). -/
structure Bank where
  accounts : List (Nat × Account)
  next_id : Nat
  currencies : List (String × Currency)
deriving DecidableEq, Repr

/-- Association-list model of `HashMap::get`. -/
def mapLookup {α β : Type} [DecidableEq α] : List (α × β) → α → Option β
  | [], _ => none
  | (k, v) :: rest, k' => if k = k' then some v else mapLookup rest k'

/-- Association-list model of `HashMap::insert` (and of writing through
`get_mut` / `entry(..).or_insert(..)`): replaces the binding if the key is
present, appends it otherwise. -/
def mapInsert {α β : Type} [DecidableEq α] : List (α × β) → α → β → List (α × β)
  | [], k, v => [(k, v)]
  | (k', v') :: rest, k, v =>
      if k' = k then (k, v) :: rest else (k', v') :: mapInsert rest k v

def tryCurrency : Currency :=
  { code := "TRY", name := "Türk Lirası", symbol := "₺" }

def usdCurrency : Currency :=
  { code := "USD", name := "Amerikan Doları", symbol := "$" }

def eurCurrency : Currency :=
  { code := "EUR", name := "Euro", symbol := "€" }

/-- `Bank::new` (main.rs lines 51-83): empty accounts, `next_id = 1`, and the
fixed three-currency registry. -/
def Bank.new : Bank :=
  { accounts := []
    next_id := 1
    currencies :=
      [("TRY", tryCurrency), ("USD", usdCurrency), ("EUR", eurCurrency)] }

/-- `Bank::verify_pin` (main.rs lines 38-49). -/
def Bank.verify_pin (b : Bank) (account_id : Nat) (pin : String) :
    Except String Unit :=
  match mapLookup b.accounts account_id with
  | none => .error ("Hesap bulunamadı: " ++ toString account_id)
  | some account =>
      if account.pin = pin then .ok () else .error "Geçersiz PIN"

/-- `Bank::create_account` (main.rs lines 85-119). The `contains_key` guard
and the subsequent `get(..).unwrap()` are merged into one `match` on the
registry lookup. -/
def Bank.create_account (b : Bank) (owner : String) (initial_balance : Rat)
    (currency_code : String) (pin : String) : Except String Nat × Bank :=
  match mapLookup b.currencies currency_code with
  | none => (.error ("Geçersiz para birimi: " ++ currency_code), b)
  | some currency =>
      let id := b.next_id
      let initial_transaction : Transaction :=
        { transaction_type := "Hesap Açılışı"
          amount := initial_balance
          balance := initial_balance
          currency := currency }
      let account : Account :=
        { id := id
          owner := owner
          balances := [(currency_code, initial_balance)]
          pin := pin
          transactions := [initial_transaction] }
      (.ok id,
        { b with
            accounts := mapInsert b.accounts id account
            next_id := b.next_id + 1 })

/-- `Bank::get_balance` (main.rs lines 121-132): `&self`, no mutation. -/
def Bank.get_balance (b : Bank) (id : Nat) (currency_code : String)
    (pin : String) : Except String Rat :=
  match b.verify_pin id pin with
  | .error e => .error e
  | .ok _ =>
      match mapLookup b.accounts id with
      | none => .error ("Hesap bulunamadı: " ++ toString id)
      | some account =>
          match mapLookup account.balances currency_code with
          | none =>
              .error ("Bu para birimi için bakiye bulunamadı: " ++ currency_code)
          | some v => .ok v

/-- `Bank::deposit` (main.rs lines 134-164). The balance entry is created at
`0` if absent (`entry(..).or_insert(0.0)`) and then incremented. -/
def Bank.deposit (b : Bank) (id : Nat) (amount : Rat) (currency_code : String)
    (pin : String) : Except String Rat × Bank :=
  match b.verify_pin id pin with
  | .error e => (.error e, b)
  | .ok _ =>
      match mapLookup b.currencies currency_code with
      | none => (.error ("Geçersiz para birimi: " ++ currency_code), b)
      | some currency =>
          match mapLookup b.accounts id with
          | none => (.error ("Hesap bulunamadı: " ++ toString id), b)
          | some account =>
              let newBalance :=
                (mapLookup account.balances currency_code).getD 0 + amount
              let tx : Transaction :=
                { transaction_type := "Para Yatırma"
                  amount := amount
                  balance := newBalance
                  currency := currency }
              let account' : Account :=
                { account with
                    balances :=
                      mapInsert account.balances currency_code newBalance
                    transactions := account.transactions ++ [tx] }
              (.ok newBalance,
                { b with accounts := mapInsert b.accounts id account' })

/-- `Bank::withdraw` (main.rs lines 166-199). Fails when the currency has no
balance entry, and with "Yetersiz bakiye" when the balance is below the
requested amount. -/
def Bank.withdraw (b : Bank) (id : Nat) (amount : Rat) (currency_code : String)
    (pin : String) : Except String Rat × Bank :=
  match b.verify_pin id pin with
  | .error e => (.error e, b)
  | .ok _ =>
      match mapLookup b.currencies currency_code with
      | none => (.error ("Geçersiz para birimi: " ++ currency_code), b)
      | some currency =>
          match mapLookup b.accounts id with
          | none => (.error ("Hesap bulunamadı: " ++ toString id), b)
          | some account =>
              match mapLookup account.balances currency_code with
              | none =>
                  (.error
                    ("Bu para birimi için bakiye bulunamadı: " ++ currency_code),
                    b)
              | some balance =>
                  if balance ≥ amount then
                    let newBalance := balance - amount
                    let tx : Transaction :=
                      { transaction_type := "Para Çekme"
                        amount := -amount
                        balance := newBalance
                        currency := currency }
                    let account' : Account :=
                      { account with
                          balances :=
                            mapInsert account.balances currency_code newBalance
                          transactions := account.transactions ++ [tx] }
                    (.ok newBalance,
                      { b with accounts := mapInsert b.accounts id account' })
                  else (.error "Yetersiz bakiye", b)

/-- `Bank::transfer` (main.rs lines 201-263). Validation happens first
(verify_pin, same-account, both accounts present, currency supported,
`get_balance` on the sender, sufficiency); the two mutations mirror the two
`if let Some(..) = accounts.get_mut(..)` blocks, which silently skip when the
account is absent (unreachable after validation). The sender-side
`balances.get_mut(code).unwrap()` is modelled by `getD 0`: the entry is
present on this path because `get_balance` just succeeded. -/
def Bank.transfer (b : Bank) (from_id to_id : Nat) (amount : Rat)
    (currency_code : String) (pin : String) : Except String Unit × Bank :=
  match b.verify_pin from_id pin with
  | .error e => (.error e, b)
  | .ok _ =>
      if from_id = to_id then (.error "Aynı hesaba transfer yapamazsınız", b)
      else if (mapLookup b.accounts from_id).isNone then
        (.error ("Gönderen hesap bulunamadı: " ++ toString from_id), b)
      else if (mapLookup b.accounts to_id).isNone then
        (.error ("Alıcı hesap bulunamadı: " ++ toString to_id), b)
      else
        match mapLookup b.currencies currency_code with
        | none => (.error ("Geçersiz para birimi: " ++ currency_code), b)
        | some currency =>
            match b.get_balance from_id currency_code pin with
            | .error e => (.error e, b)
            | .ok from_balance =>
                if from_balance < amount then (.error "Yetersiz bakiye", b)
                else
                  let b1 :=
                    match mapLookup b.accounts from_id with
                    | none => b
                    | some from_account =>
                        let newBal :=
                          (mapLookup from_account.balances currency_code).getD 0
                            - amount
                        let tx : Transaction :=
                          { transaction_type :=
                              "Transfer (Hesap " ++ toString to_id ++ ")"
                            amount := -amount
                            balance := newBal
                            currency := currency }
                        { b with
                            accounts := mapInsert b.accounts from_id
                              { from_account with
                                  balances := mapInsert from_account.balances
                                    currency_code newBal
                                  transactions :=
                                    from_account.transactions ++ [tx] } }
                  let b2 :=
                    match mapLookup b1.accounts to_id with
                    | none => b1
                    | some to_account =>
                        let newBal :=
                          (mapLookup to_account.balances currency_code).getD 0
                            + amount
                        let tx : Transaction :=
                          { transaction_type :=
                              "Transfer (Hesap " ++ toString from_id ++ ")"
                            amount := amount
                            balance := newBal
                            currency := currency }
                        { b1 with
                            accounts := mapInsert b1.accounts to_id
                              { to_account with
                                  balances := mapInsert to_account.balances
                                    currency_code newBal
                                  transactions :=
                                    to_account.transactions ++ [tx] } }
                  (.ok (), b2)

/-! ## Observation functions and invariant predicates -/

/-- The balance an account holds in a currency, reading an absent account or
absent currency entry as `0` (used to state conservation; the operations
themselves distinguish absent from zero). -/
def balanceOf (b : Bank) (id : Nat) (code : String) : Rat :=
  match mapLookup b.accounts id with
  | none => 0
  | some acc => (mapLookup acc.balances code).getD 0

/-- Signed contribution of one transaction to the running total of a
currency: its signed amount when it is tagged with that currency, else `0`. -/
def txAmount (code : String) (t : Transaction) : Rat :=
  if t.currency.code = code then t.amount else 0

/-- Signed sum, over a transaction list, of the amounts tagged with the given
currency (all transaction kinds included). -/
def txSum (code : String) : List Transaction → Rat
  | [] => 0
  | t :: ts => txAmount code t + txSum code ts

/-- Signed sum of the non-opening ("Hesap Açılışı") transactions of a
currency: the Deposit / Withdraw / TransferIn / TransferOut movements. -/
def moveSum (code : String) : List Transaction → Rat
  | [] => 0
  | t :: ts =>
      (if t.currency.code = code ∧ t.transaction_type ≠ "Hesap Açılışı" then
        t.amount
      else 0) + moveSum code ts

/-- The opening balance recorded in a currency: the summed amount of the
"Hesap Açılışı" transactions tagged with it (`0` for every currency other
than the one the account was opened in). -/
def openingBalance (code : String) : List Transaction → Rat
  | [] => 0
  | t :: ts =>
      (if t.currency.code = code ∧ t.transaction_type = "Hesap Açılışı" then
        t.amount
      else 0) + openingBalance code ts

/-- Per-account ledger invariant: in every currency, the signed sum of the
account's transactions equals its balance entry (`0` when absent). -/
def accLedger (acc : Account) : Prop :=
  ∀ code : String, txSum code acc.transactions = (mapLookup acc.balances code).getD 0

/-- Bank-wide ledger invariant. -/
def bankLedger (b : Bank) : Prop :=
  ∀ id acc, mapLookup b.accounts id = some acc → accLedger acc

/-- Per-account non-negativity: every balance entry is `≥ 0` (absent read as
`0`). -/
def accNonneg (acc : Account) : Prop :=
  ∀ code : String, 0 ≤ (mapLookup acc.balances code).getD 0

/-- Bank-wide non-negativity of balances. -/
def bankNonneg (b : Bank) : Prop :=
  ∀ id acc, mapLookup b.accounts id = some acc → accNonneg acc

/-- Registry sanity: every registry binding maps a code to a currency
carrying that code. -/
def currenciesOk (b : Bank) : Prop :=
  ∀ code c, mapLookup b.currencies code = some c → c.code = code

/-- States reachable from `Bank::new` by the public operations.
(`get_balance` and `verify_pin` take `&self` and cannot change the state, so
they need no constructor.) -/
inductive Reachable : Bank → Prop where
  | new : Reachable Bank.new
  | create (b : Bank) (owner : String) (init : Rat) (code pin : String) :
      Reachable b → Reachable (b.create_account owner init code pin).2
  | dep (b : Bank) (id : Nat) (amount : Rat) (code pin : String) :
      Reachable b → Reachable (b.deposit id amount code pin).2
  | wd (b : Bank) (id : Nat) (amount : Rat) (code pin : String) :
      Reachable b → Reachable (b.withdraw id amount code pin).2
  | tr (b : Bank) (f t : Nat) (amount : Rat) (code pin : String) :
      Reachable b → Reachable (b.transfer f t amount code pin).2

/-- States reachable from `Bank::new` when every opening balance, every
deposited amount and every transferred amount is non-negative (withdraw
amounts are unrestricted: the `balance >= amount` guard already keeps the
result non-negative). -/
inductive ReachableNN : Bank → Prop where
  | new : ReachableNN Bank.new
  | create (b : Bank) (owner : String) (init : Rat) (code pin : String) :
      0 ≤ init → ReachableNN b → ReachableNN (b.create_account owner init code pin).2
  | dep (b : Bank) (id : Nat) (amount : Rat) (code pin : String) :
      0 ≤ amount → ReachableNN b → ReachableNN (b.deposit id amount code pin).2
  | wd (b : Bank) (id : Nat) (amount : Rat) (code pin : String) :
      ReachableNN b → ReachableNN (b.withdraw id amount code pin).2
  | tr (b : Bank) (f t : Nat) (amount : Rat) (code pin : String) :
      0 ≤ amount → ReachableNN b → ReachableNN (b.transfer f t amount code pin).2

/-- Shorthand for the account update every money-movement performs: set the
balance entry of one currency and append one transaction. -/
def Account.addTx (acc : Account) (code : String) (nb : Rat) (tx : Transaction) :
    Account :=
  { acc with
      balances := mapInsert acc.balances code nb
      transactions := acc.transactions ++ [tx] }

/-- The account record `create_account` builds. -/
def openAccount (id : Nat) (owner : String) (init : Rat) (code pin : String)
    (cur : Currency) : Account :=
  { id := id
    owner := owner
    balances := [(code, init)]
    pin := pin
    transactions :=
      [{ transaction_type := "Hesap Açılışı"
         amount := init
         balance := init
         currency := cur }] }

/-- Decidable equality for operation results, so that witnesses can be
checked by evaluation. -/
instance exceptDecEq {e a : Type} [DecidableEq e] [DecidableEq a] :
    DecidableEq (Except e a) := fun x y =>
  match x, y with
  | .error s, .error s' =>
      if h : s = s' then .isTrue (by rw [h]) else .isFalse (by simp [h])
  | .error s, .ok w => .isFalse (by simp)
  | .ok w, .error s => .isFalse (by simp)
  | .ok w, .ok w' =>
      if h : w = w' then .isTrue (by rw [h]) else .isFalse (by simp [h])

/-! ## Concrete states used by witnesses and counterexamples -/

/-- The spec's scenario: account 1 opened by "Ayşe" with 1000 TRY. -/
def bankA : Bank := (Bank.new.create_account "Ayşe" 1000 "TRY" "1234").2

/-- Scenario continued: account 2 opened by "Mehmet" with 0 TRY. -/
def bankAB : Bank := (bankA.create_account "Mehmet" 0 "TRY" "5678").2

/-- Account 1 as it exists in `bankA` / `bankAB`. -/
def accA : Account :=
  { id := 1
    owner := "Ayşe"
    balances := [("TRY", 1000)]
    pin := "1234"
    transactions :=
      [{ transaction_type := "Hesap Açılışı"
         amount := 1000
         balance := 1000
         currency := tryCurrency }] }

/-- A reachable bank holding a negative balance: the engine accepts a
negative opening balance. -/
def bankNeg : Bank := (Bank.new.create_account "Veli" (-1) "TRY" "0000").2

/-! ## Association-list lemmas -/

theorem mapLookup_insert_self {α β : Type} [DecidableEq α]
    (m : List (α × β)) (k : α) (v : β) :
    mapLookup (mapInsert m k v) k = some v := by
  induction m with
  | nil => simp [mapInsert, mapLookup]
  | cons p rest ih =>
      obtain ⟨k', v'⟩ := p
      by_cases h : k' = k
      · subst h
        simp [mapInsert, mapLookup]
      · simp [mapInsert, mapLookup, h, ih]

theorem mapLookup_insert_ne {α β : Type} [DecidableEq α] {k k' : α}
    (h : k' ≠ k) (m : List (α × β)) (v : β) :
    mapLookup (mapInsert m k v) k' = mapLookup m k' := by
  have hne : k ≠ k' := Ne.symm h
  induction m with
  | nil => simp [mapInsert, mapLookup, hne]
  | cons p rest ih =>
      obtain ⟨k'', v''⟩ := p
      by_cases hk : k'' = k
      · subst hk
        simp [mapInsert, mapLookup, hne]
      · simp [mapInsert, mapLookup, hk, ih]

theorem mapLookup_insert_cases {α β : Type} [DecidableEq α]
    {m : List (α × β)} {k k' : α} {v w : β}
    (h : mapLookup (mapInsert m k v) k' = some w) :
    (k' = k ∧ w = v) ∨ mapLookup m k' = some w := by
  by_cases hk : k' = k
  · subst hk
    rw [mapLookup_insert_self] at h
    exact Or.inl ⟨rfl, (Option.some.inj h).symm⟩
  · rw [mapLookup_insert_ne hk] at h
    exact Or.inr h

/-! ## Transaction-sum lemmas -/

theorem txSum_append (code : String) (ts us : List Transaction) :
    txSum code (ts ++ us) = txSum code ts + txSum code us := by
  induction ts with
  | nil => simp [txSum]
  | cons t ts ih => simp [txSum, ih, add_assoc]

theorem moveSum_add_openingBalance (code : String) (ts : List Transaction) :
    moveSum code ts + openingBalance code ts = txSum code ts := by
  induction ts with
  | nil => simp [moveSum, openingBalance, txSum]
  | cons t ts ih =>
      simp only [moveSum, openingBalance, txSum, txAmount]
      by_cases h1 : t.currency.code = code
      · by_cases h2 : t.transaction_type = "Hesap Açılışı" <;>
          · simp [h1, h2, ← ih]
            try ring
      · simp [h1, ← ih]
        try ring

/-! ## Preservation lemmas for the account-level invariants -/

theorem accLedger_addTx {acc : Account} {code : String} {tx : Transaction}
    {nb : Rat} (h : accLedger acc) (hcode : tx.currency.code = code)
    (hnb : nb = (mapLookup acc.balances code).getD 0 + tx.amount) :
    accLedger (acc.addTx code nb tx) := by
  intro code'
  show txSum code' (acc.transactions ++ [tx]) =
    (mapLookup (mapInsert acc.balances code nb) code').getD 0
  rw [txSum_append]
  by_cases hc : code' = code
  · subst hc
    rw [mapLookup_insert_self]
    simp [txSum, txAmount, hcode, h code', hnb]
  · rw [mapLookup_insert_ne hc]
    have hne : ¬code = code' := fun hh => hc hh.symm
    have htx : txAmount code' tx = 0 := by
      simp [txAmount, hcode, hne]
    simp [txSum, htx, h code']

theorem accLedger_open (id : Nat) (owner : String) (init : Rat)
    (code pin : String) (cur : Currency) (hcode : cur.code = code) :
    accLedger (openAccount id owner init code pin cur) := by
  intro code'
  by_cases hc : code = code' <;>
    simp [openAccount, txSum, txAmount, mapLookup, hcode, hc]

theorem accNonneg_addTx {acc : Account} {code : String} {tx : Transaction}
    {nb : Rat} (h : accNonneg acc) (hnb : 0 ≤ nb) :
    accNonneg (acc.addTx code nb tx) := by
  intro code'
  show 0 ≤ (mapLookup (mapInsert acc.balances code nb) code').getD 0
  by_cases hc : code' = code
  · subst hc
    rw [mapLookup_insert_self]
    simpa using hnb
  · rw [mapLookup_insert_ne hc]
    exact h code'

theorem accNonneg_open (id : Nat) (owner : String) (init : Rat)
    (code pin : String) (cur : Currency) (hinit : 0 ≤ init) :
    accNonneg (openAccount id owner init code pin cur) := by
  intro code'
  by_cases hc : code = code' <;>
    simp [openAccount, mapLookup, hc, hinit]

/-! ## Operation path lemmas: one equation per control-flow path -/

theorem verify_pin_eq_notfound {b : Bank} {id : Nat} {pin : String}
    (hm : mapLookup b.accounts id = none) :
    b.verify_pin id pin = Except.error ("Hesap bulunamadı: " ++ toString id) := by
  simp [Bank.verify_pin, hm]

theorem verify_pin_eq_ok {b : Bank} {id : Nat} {acc : Account} {pin : String}
    (hacc : mapLookup b.accounts id = some acc) (hpin : acc.pin = pin) :
    b.verify_pin id pin = Except.ok () := by
  simp [Bank.verify_pin, hacc, hpin]

theorem verify_pin_eq_wrong {b : Bank} {id : Nat} {acc : Account} {pin : String}
    (hacc : mapLookup b.accounts id = some acc) (hpin : acc.pin ≠ pin) :
    b.verify_pin id pin = Except.error "Geçersiz PIN" := by
  simp [Bank.verify_pin, hacc, hpin]

theorem verify_pin_ok_elim {b : Bank} {id : Nat} {pin : String} {u : Unit}
    (h : b.verify_pin id pin = Except.ok u) :
    ∃ acc, mapLookup b.accounts id = some acc ∧ acc.pin = pin := by
  cases hm : mapLookup b.accounts id with
  | none =>
      rw [verify_pin_eq_notfound hm] at h
      exact absurd h (by simp)
  | some acc =>
      by_cases hp : acc.pin = pin
      · exact ⟨acc, rfl, hp⟩
      · rw [verify_pin_eq_wrong hm hp] at h
        exact absurd h (by simp)

theorem get_balance_pin_gate {b : Bank} {id : Nat} {code pin e : String}
    (h : b.verify_pin id pin = Except.error e) :
    b.get_balance id code pin = Except.error e := by
  unfold Bank.get_balance
  rw [h]

theorem deposit_pin_gate {b : Bank} {id : Nat} {amount : Rat} {code pin e : String}
    (h : b.verify_pin id pin = Except.error e) :
    b.deposit id amount code pin = (Except.error e, b) := by
  unfold Bank.deposit
  rw [h]

theorem withdraw_pin_gate {b : Bank} {id : Nat} {amount : Rat} {code pin e : String}
    (h : b.verify_pin id pin = Except.error e) :
    b.withdraw id amount code pin = (Except.error e, b) := by
  unfold Bank.withdraw
  rw [h]

theorem transfer_pin_gate {b : Bank} {f t : Nat} {amount : Rat} {code pin e : String}
    (h : b.verify_pin f pin = Except.error e) :
    b.transfer f t amount code pin = (Except.error e, b) := by
  unfold Bank.transfer
  rw [h]

theorem get_balance_eq_ok {b : Bank} {id : Nat} {acc : Account}
    {code pin : String} {v : Rat}
    (hacc : mapLookup b.accounts id = some acc) (hpin : acc.pin = pin)
    (hbal : mapLookup acc.balances code = some v) :
    b.get_balance id code pin = Except.ok v := by
  simp [Bank.get_balance, Bank.verify_pin, hacc, hpin, hbal]

theorem get_balance_missing {b : Bank} {id : Nat} {acc : Account}
    {code pin : String}
    (hacc : mapLookup b.accounts id = some acc) (hpin : acc.pin = pin)
    (hbal : mapLookup acc.balances code = none) :
    b.get_balance id code pin =
      Except.error ("Bu para birimi için bakiye bulunamadı: " ++ code) := by
  simp [Bank.get_balance, Bank.verify_pin, hacc, hpin, hbal]

theorem get_balance_ok_elim {b : Bank} {id : Nat} {code pin : String} {v : Rat}
    (h : b.get_balance id code pin = Except.ok v) :
    ∃ acc, mapLookup b.accounts id = some acc ∧ acc.pin = pin ∧
      mapLookup acc.balances code = some v := by
  cases hv : b.verify_pin id pin with
  | error e =>
      rw [get_balance_pin_gate hv] at h
      exact absurd h (by simp)
  | ok u =>
      obtain ⟨acc, hacc, hpin⟩ := verify_pin_ok_elim hv
      cases hb : mapLookup acc.balances code with
      | none =>
          rw [get_balance_missing hacc hpin hb] at h
          exact absurd h (by simp)
      | some w =>
          rw [get_balance_eq_ok hacc hpin hb] at h
          exact ⟨acc, hacc, hpin, by rw [hb, Except.ok.inj h]⟩

theorem create_eq_invalid {b : Bank} {owner : String} {init : Rat}
    {code pin : String} (hc : mapLookup b.currencies code = none) :
    b.create_account owner init code pin =
      (Except.error ("Geçersiz para birimi: " ++ code), b) := by
  simp [Bank.create_account, hc]

theorem create_eq_ok {b : Bank} {owner : String} {init : Rat}
    {code pin : String} {cur : Currency}
    (hc : mapLookup b.currencies code = some cur) :
    b.create_account owner init code pin =
      (Except.ok b.next_id,
        { b with
            accounts := mapInsert b.accounts b.next_id
              (openAccount b.next_id owner init code pin cur)
            next_id := b.next_id + 1 }) := by
  simp [Bank.create_account, openAccount, hc]

theorem deposit_eq_invalid {b : Bank} {id : Nat} {amount : Rat}
    {code pin : String} {u : Unit}
    (hv : b.verify_pin id pin = Except.ok u)
    (hc : mapLookup b.currencies code = none) :
    b.deposit id amount code pin =
      (Except.error ("Geçersiz para birimi: " ++ code), b) := by
  simp [Bank.deposit, hv, hc]

theorem deposit_eq_notfound {b : Bank} {id : Nat} {amount : Rat}
    {code pin : String} {u : Unit} {cur : Currency}
    (hv : b.verify_pin id pin = Except.ok u)
    (hc : mapLookup b.currencies code = some cur)
    (ha : mapLookup b.accounts id = none) :
    b.deposit id amount code pin =
      (Except.error ("Hesap bulunamadı: " ++ toString id), b) := by
  simp [Bank.deposit, hv, hc, ha]

theorem deposit_eq_ok {b : Bank} {id : Nat} {amount : Rat}
    {code pin : String} {u : Unit} {cur : Currency} {acc : Account}
    (hv : b.verify_pin id pin = Except.ok u)
    (hc : mapLookup b.currencies code = some cur)
    (ha : mapLookup b.accounts id = some acc) :
    b.deposit id amount code pin =
      (Except.ok ((mapLookup acc.balances code).getD 0 + amount),
        { b with
            accounts :=
              mapInsert b.accounts id
                (acc.addTx code
                  ((mapLookup acc.balances code).getD 0 + amount)
                  ⟨"Para Yatırma", amount,
                    (mapLookup acc.balances code).getD 0 + amount, cur⟩) }) := by
  simp [Bank.deposit, Account.addTx, hv, hc, ha]

theorem withdraw_eq_invalid {b : Bank} {id : Nat} {amount : Rat}
    {code pin : String} {u : Unit}
    (hv : b.verify_pin id pin = Except.ok u)
    (hc : mapLookup b.currencies code = none) :
    b.withdraw id amount code pin =
      (Except.error ("Geçersiz para birimi: " ++ code), b) := by
  simp [Bank.withdraw, hv, hc]

theorem withdraw_eq_notfound {b : Bank} {id : Nat} {amount : Rat}
    {code pin : String} {u : Unit} {cur : Currency}
    (hv : b.verify_pin id pin = Except.ok u)
    (hc : mapLookup b.currencies code = some cur)
    (ha : mapLookup b.accounts id = none) :
    b.withdraw id amount code pin =
      (Except.error ("Hesap bulunamadı: " ++ toString id), b) := by
  simp [Bank.withdraw, hv, hc, ha]

theorem withdraw_eq_nobal {b : Bank} {id : Nat} {amount : Rat}
    {code pin : String} {u : Unit} {cur : Currency} {acc : Account}
    (hv : b.verify_pin id pin = Except.ok u)
    (hc : mapLookup b.currencies code = some cur)
    (ha : mapLookup b.accounts id = some acc)
    (hb : mapLookup acc.balances code = none) :
    b.withdraw id amount code pin =
      (Except.error ("Bu para birimi için bakiye bulunamadı: " ++ code), b) := by
  simp [Bank.withdraw, hv, hc, ha, hb]

theorem withdraw_eq_insufficient {b : Bank} {id : Nat} {amount : Rat}
    {code pin : String} {u : Unit} {cur : Currency} {acc : Account} {bal : Rat}
    (hv : b.verify_pin id pin = Except.ok u)
    (hc : mapLookup b.currencies code = some cur)
    (ha : mapLookup b.accounts id = some acc)
    (hb : mapLookup acc.balances code = some bal)
    (hlt : bal < amount) :
    b.withdraw id amount code pin = (Except.error "Yetersiz bakiye", b) := by
  simp [Bank.withdraw, hv, hc, ha, hb, not_le.mpr hlt]

theorem withdraw_eq_ok {b : Bank} {id : Nat} {amount : Rat}
    {code pin : String} {u : Unit} {cur : Currency} {acc : Account} {bal : Rat}
    (hv : b.verify_pin id pin = Except.ok u)
    (hc : mapLookup b.currencies code = some cur)
    (ha : mapLookup b.accounts id = some acc)
    (hb : mapLookup acc.balances code = some bal)
    (hge : amount ≤ bal) :
    b.withdraw id amount code pin =
      (Except.ok (bal - amount),
        { b with
            accounts :=
              mapInsert b.accounts id
                (acc.addTx code (bal - amount)
                  ⟨"Para Çekme", -amount, bal - amount, cur⟩) }) := by
  simp [Bank.withdraw, Account.addTx, hv, hc, ha, hb, hge]

theorem transfer_eq_same {b : Bank} {f : Nat} {amount : Rat}
    {code pin : String} {u : Unit}
    (hv : b.verify_pin f pin = Except.ok u) :
    b.transfer f f amount code pin =
      (Except.error "Aynı hesaba transfer yapamazsınız", b) := by
  simp [Bank.transfer, hv]

theorem transfer_eq_nofrom {b : Bank} {f t : Nat} {amount : Rat}
    {code pin : String} {u : Unit}
    (hv : b.verify_pin f pin = Except.ok u) (hft : f ≠ t)
    (ha : mapLookup b.accounts f = none) :
    b.transfer f t amount code pin =
      (Except.error ("Gönderen hesap bulunamadı: " ++ toString f), b) := by
  simp [Bank.transfer, hv, hft, ha]

theorem transfer_eq_noto {b : Bank} {f t : Nat} {amount : Rat}
    {code pin : String} {u : Unit} {fa : Account}
    (hv : b.verify_pin f pin = Except.ok u) (hft : f ≠ t)
    (ha : mapLookup b.accounts f = some fa)
    (hb : mapLookup b.accounts t = none) :
    b.transfer f t amount code pin =
      (Except.error ("Alıcı hesap bulunamadı: " ++ toString t), b) := by
  simp [Bank.transfer, hv, hft, ha, hb]

theorem transfer_eq_nocur {b : Bank} {f t : Nat} {amount : Rat}
    {code pin : String} {u : Unit} {fa ta : Account}
    (hv : b.verify_pin f pin = Except.ok u) (hft : f ≠ t)
    (ha : mapLookup b.accounts f = some fa)
    (hb : mapLookup b.accounts t = some ta)
    (hc : mapLookup b.currencies code = none) :
    b.transfer f t amount code pin =
      (Except.error ("Geçersiz para birimi: " ++ code), b) := by
  simp [Bank.transfer, hv, hft, ha, hb, hc]

theorem transfer_eq_gbal_error {b : Bank} {f t : Nat} {amount : Rat}
    {code pin e : String} {u : Unit} {fa ta : Account} {cur : Currency}
    (hv : b.verify_pin f pin = Except.ok u) (hft : f ≠ t)
    (ha : mapLookup b.accounts f = some fa)
    (hb : mapLookup b.accounts t = some ta)
    (hc : mapLookup b.currencies code = some cur)
    (hg : b.get_balance f code pin = Except.error e) :
    b.transfer f t amount code pin = (Except.error e, b) := by
  simp [Bank.transfer, hv, hft, ha, hb, hc, hg]

theorem transfer_eq_insufficient {b : Bank} {f t : Nat} {amount : Rat}
    {code pin : String} {u : Unit} {fa ta : Account} {cur : Currency} {fb : Rat}
    (hv : b.verify_pin f pin = Except.ok u) (hft : f ≠ t)
    (ha : mapLookup b.accounts f = some fa)
    (hb : mapLookup b.accounts t = some ta)
    (hc : mapLookup b.currencies code = some cur)
    (hg : b.get_balance f code pin = Except.ok fb)
    (hlt : fb < amount) :
    b.transfer f t amount code pin = (Except.error "Yetersiz bakiye", b) := by
  simp [Bank.transfer, hv, hft, ha, hb, hc, hg, hlt]

theorem transfer_eq_ok {b : Bank} {f t : Nat} {amount : Rat}
    {code pin : String} {u : Unit} {fa ta : Account} {cur : Currency} {fb : Rat}
    (hv : b.verify_pin f pin = Except.ok u) (hft : f ≠ t)
    (ha : mapLookup b.accounts f = some fa)
    (hb : mapLookup b.accounts t = some ta)
    (hc : mapLookup b.currencies code = some cur)
    (hg : b.get_balance f code pin = Except.ok fb)
    (hfb : mapLookup fa.balances code = some fb)
    (hge : amount ≤ fb) :
    b.transfer f t amount code pin =
      (Except.ok (),
        { b with
            accounts :=
              mapInsert
                (mapInsert b.accounts f
                  (fa.addTx code (fb - amount)
                    ⟨"Transfer (Hesap " ++ toString t ++ ")", -amount,
                      fb - amount, cur⟩))
                t
                (ta.addTx code ((mapLookup ta.balances code).getD 0 + amount)
                  ⟨"Transfer (Hesap " ++ toString f ++ ")", amount,
                    (mapLookup ta.balances code).getD 0 + amount, cur⟩) }) := by
  have hne : t ≠ f := fun hh => hft hh.symm
  simp [Bank.transfer, Account.addTx, hv, hft, ha, hb, hc, hg, hfb,
    not_lt.mpr hge, mapLookup_insert_ne hne]

/-! ## Whole-operation dichotomies -/

theorem create_spec (b : Bank) (owner : String) (init : Rat) (code pin : String) :
    (mapLookup b.currencies code = none ∧
      b.create_account owner init code pin =
        (Except.error ("Geçersiz para birimi: " ++ code), b)) ∨
    (∃ cur, mapLookup b.currencies code = some cur ∧
      b.create_account owner init code pin =
        (Except.ok b.next_id,
          { b with
              accounts := mapInsert b.accounts b.next_id
                (openAccount b.next_id owner init code pin cur)
              next_id := b.next_id + 1 })) := by
  cases hc : mapLookup b.currencies code with
  | none => exact Or.inl ⟨rfl, create_eq_invalid hc⟩
  | some cur => exact Or.inr ⟨cur, rfl, create_eq_ok hc⟩

theorem deposit_spec (b : Bank) (id : Nat) (amount : Rat) (code pin : String) :
    (∃ e, b.deposit id amount code pin = (Except.error e, b)) ∨
    (∃ acc cur, mapLookup b.accounts id = some acc ∧ acc.pin = pin ∧
      mapLookup b.currencies code = some cur ∧
      b.deposit id amount code pin =
        (Except.ok ((mapLookup acc.balances code).getD 0 + amount),
          { b with
              accounts :=
                mapInsert b.accounts id
                  (acc.addTx code
                    ((mapLookup acc.balances code).getD 0 + amount)
                    ⟨"Para Yatırma", amount,
                      (mapLookup acc.balances code).getD 0 + amount, cur⟩) })) := by
  cases hv : b.verify_pin id pin with
  | error e => exact Or.inl ⟨e, deposit_pin_gate hv⟩
  | ok u =>
      cases hc : mapLookup b.currencies code with
      | none => exact Or.inl ⟨_, deposit_eq_invalid hv hc⟩
      | some cur =>
          cases ha : mapLookup b.accounts id with
          | none => exact Or.inl ⟨_, deposit_eq_notfound hv hc ha⟩
          | some acc =>
              obtain ⟨acc', hacc', hpin'⟩ := verify_pin_ok_elim hv
              rw [ha] at hacc'
              obtain rfl : acc = acc' := Option.some.inj hacc'
              exact Or.inr ⟨acc, cur, rfl, hpin', rfl, deposit_eq_ok hv hc ha⟩

theorem withdraw_spec (b : Bank) (id : Nat) (amount : Rat) (code pin : String) :
    (∃ e, b.withdraw id amount code pin = (Except.error e, b)) ∨
    (∃ acc cur bal, mapLookup b.accounts id = some acc ∧ acc.pin = pin ∧
      mapLookup b.currencies code = some cur ∧
      mapLookup acc.balances code = some bal ∧ amount ≤ bal ∧
      b.withdraw id amount code pin =
        (Except.ok (bal - amount),
          { b with
              accounts :=
                mapInsert b.accounts id
                  (acc.addTx code (bal - amount)
                    ⟨"Para Çekme", -amount, bal - amount, cur⟩) })) := by
  cases hv : b.verify_pin id pin with
  | error e => exact Or.inl ⟨e, withdraw_pin_gate hv⟩
  | ok u =>
      cases hc : mapLookup b.currencies code with
      | none => exact Or.inl ⟨_, withdraw_eq_invalid hv hc⟩
      | some cur =>
          cases ha : mapLookup b.accounts id with
          | none => exact Or.inl ⟨_, withdraw_eq_notfound hv hc ha⟩
          | some acc =>
              cases hb : mapLookup acc.balances code with
              | none => exact Or.inl ⟨_, withdraw_eq_nobal hv hc ha hb⟩
              | some bal =>
                  obtain ⟨acc', hacc', hpin'⟩ := verify_pin_ok_elim hv
                  rw [ha] at hacc'
                  obtain rfl : acc = acc' := Option.some.inj hacc'
                  by_cases hge : amount ≤ bal
                  · exact Or.inr
                      ⟨acc, cur, bal, rfl, hpin', rfl, hb, hge,
                        withdraw_eq_ok hv hc ha hb hge⟩
                  · exact Or.inl
                      ⟨_, withdraw_eq_insufficient hv hc ha hb (not_le.mp hge)⟩

theorem transfer_spec (b : Bank) (f t : Nat) (amount : Rat) (code pin : String) :
    (∃ e, b.transfer f t amount code pin = (Except.error e, b)) ∨
    (∃ fa ta cur fb, f ≠ t ∧
      mapLookup b.accounts f = some fa ∧ fa.pin = pin ∧
      mapLookup b.accounts t = some ta ∧
      mapLookup b.currencies code = some cur ∧
      mapLookup fa.balances code = some fb ∧ amount ≤ fb ∧
      b.transfer f t amount code pin =
        (Except.ok (),
          { b with
              accounts :=
                mapInsert
                  (mapInsert b.accounts f
                    (fa.addTx code (fb - amount)
                      ⟨"Transfer (Hesap " ++ toString t ++ ")", -amount,
                        fb - amount, cur⟩))
                  t
                  (ta.addTx code
                    ((mapLookup ta.balances code).getD 0 + amount)
                    ⟨"Transfer (Hesap " ++ toString f ++ ")", amount,
                      (mapLookup ta.balances code).getD 0 + amount, cur⟩) })) := by
  cases hv : b.verify_pin f pin with
  | error e => exact Or.inl ⟨e, transfer_pin_gate hv⟩
  | ok u =>
      by_cases hft : f = t
      · subst hft
        exact Or.inl ⟨_, transfer_eq_same hv⟩
      · cases ha : mapLookup b.accounts f with
        | none => exact Or.inl ⟨_, transfer_eq_nofrom hv hft ha⟩
        | some fa =>
            cases hb : mapLookup b.accounts t with
            | none => exact Or.inl ⟨_, transfer_eq_noto hv hft ha hb⟩
            | some ta =>
                cases hc : mapLookup b.currencies code with
                | none => exact Or.inl ⟨_, transfer_eq_nocur hv hft ha hb hc⟩
                | some cur =>
                    cases hg : b.get_balance f code pin with
                    | error e =>
                        exact Or.inl ⟨e, transfer_eq_gbal_error hv hft ha hb hc hg⟩
                    | ok fb =>
                        obtain ⟨fa', hfa', hpin', hfb'⟩ := get_balance_ok_elim hg
                        rw [ha] at hfa'
                        obtain rfl : fa = fa' := Option.some.inj hfa'
                        by_cases hge : amount ≤ fb
                        · exact Or.inr
                            ⟨fa, ta, cur, fb, hft, rfl, hpin', rfl, rfl, hfb',
                              hge, transfer_eq_ok hv hft ha hb hc hg hfb' hge⟩
                        · exact Or.inl
                            ⟨_, transfer_eq_insufficient hv hft ha hb hc hg
                              (not_le.mp hge)⟩

/-! ## Facts preserved along reachability -/

theorem create_currencies (b : Bank) (owner : String) (init : Rat)
    (code pin : String) :
    (b.create_account owner init code pin).2.currencies = b.currencies := by
  rcases create_spec b owner init code pin with ⟨_, h⟩ | ⟨cur, _, h⟩ <;> rw [h]

theorem deposit_currencies (b : Bank) (id : Nat) (amount : Rat)
    (code pin : String) :
    (b.deposit id amount code pin).2.currencies = b.currencies := by
  rcases deposit_spec b id amount code pin with ⟨e, h⟩ | ⟨acc, cur, _, _, _, h⟩ <;>
    rw [h]

theorem withdraw_currencies (b : Bank) (id : Nat) (amount : Rat)
    (code pin : String) :
    (b.withdraw id amount code pin).2.currencies = b.currencies := by
  rcases withdraw_spec b id amount code pin with
    ⟨e, h⟩ | ⟨acc, cur, bal, _, _, _, _, _, h⟩ <;> rw [h]

theorem transfer_currencies (b : Bank) (f t : Nat) (amount : Rat)
    (code pin : String) :
    (b.transfer f t amount code pin).2.currencies = b.currencies := by
  rcases transfer_spec b f t amount code pin with
    ⟨e, h⟩ | ⟨fa, ta, cur, fb, _, _, _, _, _, _, _, h⟩ <;> rw [h]

theorem reachable_currencies {b : Bank} (h : Reachable b) :
    b.currencies = Bank.new.currencies := by
  induction h with
  | new => rfl
  | create c owner init code pin hb ih => rw [create_currencies]; exact ih
  | dep c id amount code pin hb ih => rw [deposit_currencies]; exact ih
  | wd c id amount code pin hb ih => rw [withdraw_currencies]; exact ih
  | tr c f t amount code pin hb ih => rw [transfer_currencies]; exact ih

theorem currenciesOk_new : currenciesOk Bank.new := by
  intro code c h
  simp only [Bank.new, mapLookup] at h
  split at h
  · rename_i h1
    obtain rfl : tryCurrency = c := Option.some.inj h
    rw [← h1]
    rfl
  · split at h
    · rename_i h2
      obtain rfl : usdCurrency = c := Option.some.inj h
      rw [← h2]
      rfl
    · split at h
      · rename_i h3
        obtain rfl : eurCurrency = c := Option.some.inj h
        rw [← h3]
        rfl
      · exact absurd h (by simp)

theorem reachable_currenciesOk {b : Bank} (h : Reachable b) : currenciesOk b := by
  intro code c hc
  rw [reachable_currencies h] at hc
  exact currenciesOk_new code c hc

theorem reachable_ledger {b : Bank} (h : Reachable b) : bankLedger b := by
  induction h with
  | new =>
      intro id acc hacc
      simp [Bank.new, mapLookup] at hacc
  | create c owner init code pin hb ih =>
      rcases create_spec c owner init code pin with ⟨_, heq⟩ | ⟨cur, hcur, heq⟩
      · rw [heq]; exact ih
      · rw [heq]
        intro id' acc' hacc'
        rcases mapLookup_insert_cases hacc' with ⟨_, rfl⟩ | h2
        · exact accLedger_open _ _ _ _ _ _
            (reachable_currenciesOk hb _ _ hcur)
        · exact ih _ _ h2
  | dep c id amount code pin hb ih =>
      rcases deposit_spec c id amount code pin with
        ⟨e, heq⟩ | ⟨acc, cur, hacc, hpin, hcur, heq⟩
      · rw [heq]; exact ih
      · rw [heq]
        intro id' acc' hacc'
        rcases mapLookup_insert_cases hacc' with ⟨_, rfl⟩ | h2
        · exact accLedger_addTx (ih _ _ hacc)
            (reachable_currenciesOk hb _ _ hcur) rfl
        · exact ih _ _ h2
  | wd c id amount code pin hb ih =>
      rcases withdraw_spec c id amount code pin with
        ⟨e, heq⟩ | ⟨acc, cur, bal, hacc, hpin, hcur, hbal, hge, heq⟩
      · rw [heq]; exact ih
      · rw [heq]
        intro id' acc' hacc'
        rcases mapLookup_insert_cases hacc' with ⟨_, rfl⟩ | h2
        · exact accLedger_addTx (ih _ _ hacc)
            (reachable_currenciesOk hb _ _ hcur)
            (by rw [hbal, Option.getD_some]; ring)
        · exact ih _ _ h2
  | tr c f t amount code pin hb ih =>
      rcases transfer_spec c f t amount code pin with
        ⟨e, heq⟩ | ⟨fa, ta, cur, fb, hft, hfa, hpin, hta, hcur, hfb, hge, heq⟩
      · rw [heq]; exact ih
      · rw [heq]
        intro id' acc' hacc'
        rcases mapLookup_insert_cases hacc' with ⟨_, rfl⟩ | h2
        · exact accLedger_addTx (ih _ _ hta)
            (reachable_currenciesOk hb _ _ hcur) rfl
        · rcases mapLookup_insert_cases h2 with ⟨_, rfl⟩ | h3
          · exact accLedger_addTx (ih _ _ hfa)
              (reachable_currenciesOk hb _ _ hcur)
              (by rw [hfb, Option.getD_some]; ring)
          · exact ih _ _ h3

theorem reachableNN_nonneg {b : Bank} (h : ReachableNN b) : bankNonneg b := by
  induction h with
  | new =>
      intro id acc hacc
      simp [Bank.new, mapLookup] at hacc
  | create c owner init code pin hinit hb ih =>
      rcases create_spec c owner init code pin with ⟨_, heq⟩ | ⟨cur, hcur, heq⟩
      · rw [heq]; exact ih
      · rw [heq]
        intro id' acc' hacc'
        rcases mapLookup_insert_cases hacc' with ⟨_, rfl⟩ | h2
        · exact accNonneg_open _ _ _ _ _ _ hinit
        · exact ih _ _ h2
  | dep c id amount code pin hamt hb ih =>
      rcases deposit_spec c id amount code pin with
        ⟨e, heq⟩ | ⟨acc, cur, hacc, hpin, hcur, heq⟩
      · rw [heq]; exact ih
      · rw [heq]
        intro id' acc' hacc'
        rcases mapLookup_insert_cases hacc' with ⟨_, rfl⟩ | h2
        · exact accNonneg_addTx (ih _ _ hacc) (add_nonneg (ih _ _ hacc code) hamt)
        · exact ih _ _ h2
  | wd c id amount code pin hb ih =>
      rcases withdraw_spec c id amount code pin with
        ⟨e, heq⟩ | ⟨acc, cur, bal, hacc, hpin, hcur, hbal, hge, heq⟩
      · rw [heq]; exact ih
      · rw [heq]
        intro id' acc' hacc'
        rcases mapLookup_insert_cases hacc' with ⟨_, rfl⟩ | h2
        · exact accNonneg_addTx (ih _ _ hacc) (sub_nonneg.mpr hge)
        · exact ih _ _ h2
  | tr c f t amount code pin hamt hb ih =>
      rcases transfer_spec c f t amount code pin with
        ⟨e, heq⟩ | ⟨fa, ta, cur, fb, hft, hfa, hpin, hta, hcur, hfb, hge, heq⟩
      · rw [heq]; exact ih
      · rw [heq]
        intro id' acc' hacc'
        rcases mapLookup_insert_cases hacc' with ⟨_, rfl⟩ | h2
        · exact accNonneg_addTx (ih _ _ hta) (add_nonneg (ih _ _ hta code) hamt)
        · rcases mapLookup_insert_cases h2 with ⟨_, rfl⟩ | h3
          · exact accNonneg_addTx (ih _ _ hfa) (sub_nonneg.mpr hge)
          · exact ih _ _ h3

theorem reachable_ids_lt {b : Bank} (h : Reachable b) :
    ∀ id acc, mapLookup b.accounts id = some acc → id < b.next_id := by
  induction h with
  | new =>
      intro id acc hacc
      simp [Bank.new, mapLookup] at hacc
  | create c owner init code pin hb ih =>
      rcases create_spec c owner init code pin with ⟨_, heq⟩ | ⟨cur, hcur, heq⟩
      · rw [heq]; exact ih
      · rw [heq]
        intro id' acc' hacc'
        rcases mapLookup_insert_cases hacc' with ⟨rfl, _⟩ | h2
        · exact Nat.lt_succ_self _
        · exact Nat.lt_succ_of_lt (ih _ _ h2)
  | dep c id amount code pin hb ih =>
      rcases deposit_spec c id amount code pin with
        ⟨e, heq⟩ | ⟨acc, cur, hacc, hpin, hcur, heq⟩
      · rw [heq]; exact ih
      · rw [heq]
        intro id' acc' hacc'
        rcases mapLookup_insert_cases hacc' with ⟨rfl, _⟩ | h2
        · exact ih _ _ hacc
        · exact ih _ _ h2
  | wd c id amount code pin hb ih =>
      rcases withdraw_spec c id amount code pin with
        ⟨e, heq⟩ | ⟨acc, cur, bal, hacc, hpin, hcur, hbal, hge, heq⟩
      · rw [heq]; exact ih
      · rw [heq]
        intro id' acc' hacc'
        rcases mapLookup_insert_cases hacc' with ⟨rfl, _⟩ | h2
        · exact ih _ _ hacc
        · exact ih _ _ h2
  | tr c f t amount code pin hb ih =>
      rcases transfer_spec c f t amount code pin with
        ⟨e, heq⟩ | ⟨fa, ta, cur, fb, hft, hfa, hpin, hta, hcur, hfb, hge, heq⟩
      · rw [heq]; exact ih
      · rw [heq]
        intro id' acc' hacc'
        rcases mapLookup_insert_cases hacc' with ⟨rfl, _⟩ | h2
        · exact ih _ _ hta
        · rcases mapLookup_insert_cases h2 with ⟨rfl, _⟩ | h3
          · exact ih _ _ hfa
          · exact ih _ _ h3

/-! ## The claims -/

/-- C1: a successful `transfer(A, B, amount, C, pin)` decreases the sender's
balance in currency C by exactly `amount`, increases the receiver's balance
in C by exactly `amount` (the receiver's entry being created at 0 first when
absent), and conserves the sum of the two balances. -/
theorem C1_transfer_conserves (b : Bank) (f t : Nat) (amount : Rat)
    (code pin : String)
    (h : (b.transfer f t amount code pin).1 = Except.ok ()) :
    balanceOf (b.transfer f t amount code pin).2 f code
        = balanceOf b f code - amount ∧
    balanceOf (b.transfer f t amount code pin).2 t code
        = balanceOf b t code + amount ∧
    balanceOf (b.transfer f t amount code pin).2 f code
          + balanceOf (b.transfer f t amount code pin).2 t code
        = balanceOf b f code + balanceOf b t code := by
  rcases transfer_spec b f t amount code pin with
    ⟨e, heq⟩ | ⟨fa, ta, cur, fb, hft, hfa, hpin, hta, hcur, hfb, hge, heq⟩
  · rw [heq] at h
    exact absurd h (by simp)
  · have h1 : balanceOf (b.transfer f t amount code pin).2 f code
        = balanceOf b f code - amount := by
      rw [heq]
      simp [balanceOf, Account.addTx, mapLookup_insert_ne hft,
        mapLookup_insert_self, hfa, hfb]
    have h2 : balanceOf (b.transfer f t amount code pin).2 t code
        = balanceOf b t code + amount := by
      rw [heq]
      simp [balanceOf, Account.addTx, mapLookup_insert_self, hta]
    exact ⟨h1, h2, by rw [h1, h2]; ring⟩

/-- C1 witness: the spec's transfer scenario evaluated concretely. -/
theorem C1_transfer_conserves_witness :
    (bankAB.transfer 1 2 300 "TRY" "1234").1 = Except.ok () ∧
    balanceOf (bankAB.transfer 1 2 300 "TRY" "1234").2 1 "TRY"
        = balanceOf bankAB 1 "TRY" - 300 ∧
    balanceOf (bankAB.transfer 1 2 300 "TRY" "1234").2 2 "TRY"
        = balanceOf bankAB 2 "TRY" + 300 := by
  have h := C1_transfer_conserves bankAB 1 2 300 "TRY" "1234" (by decide)
  exact ⟨by decide, h.1, h.2.1⟩

/-- C2: on an existing account with a matching PIN, a supported currency and
an existing balance entry `bal`, withdraw fails with InsufficientFunds
exactly when `bal < a`, leaving the bank unchanged in that case; when
`a ≤ bal` it returns `bal - a`, sets the entry to `bal - a` and appends
exactly one Withdraw ("Para Çekme") transaction with signed amount `-a` and
resulting balance `bal - a`. -/
theorem C2_withdraw_behaviour (b : Bank) (id : Nat) (acc : Account)
    (code pin : String) (bal a : Rat) (cur : Currency)
    (hacc : mapLookup b.accounts id = some acc) (hpin : acc.pin = pin)
    (hcur : mapLookup b.currencies code = some cur)
    (hbal : mapLookup acc.balances code = some bal) :
    ((b.withdraw id a code pin).1 = Except.error "Yetersiz bakiye" ↔ bal < a) ∧
    (bal < a → b.withdraw id a code pin = (Except.error "Yetersiz bakiye", b)) ∧
    (a ≤ bal →
      b.withdraw id a code pin =
        (Except.ok (bal - a),
          { b with
              accounts :=
                mapInsert b.accounts id
                  (acc.addTx code (bal - a)
                    ⟨"Para Çekme", -a, bal - a, cur⟩) })) := by
  have hv := verify_pin_eq_ok hacc hpin
  refine ⟨⟨?_, ?_⟩, fun hlt => withdraw_eq_insufficient hv hcur hacc hbal hlt,
    fun hge => withdraw_eq_ok hv hcur hacc hbal hge⟩
  · intro h
    by_contra hcon
    rw [withdraw_eq_ok hv hcur hacc hbal (not_lt.mp hcon)] at h
    simp at h
  · intro hlt
    rw [withdraw_eq_insufficient hv hcur hacc hbal hlt]

/-- C2 witness: the spec's overdraft scenario evaluated concretely. -/
theorem C2_withdraw_behaviour_witness :
    bankA.withdraw 1 2000 "TRY" "1234" = (Except.error "Yetersiz bakiye", bankA) := by
  have h := C2_withdraw_behaviour bankA 1 accA "TRY" "1234" 1000 2000 tryCurrency
    (by decide) (by decide) (by decide) (by decide)
  exact h.2.1 (by decide)

/-- C3 counterexample: the claim quantifies over every bank state and pin,
but the PIN gate runs before the same-account check, so `transfer(1, 1, ..)`
on the fresh bank fails with AccountNotFound, not SameAccount. -/
theorem C3_counterexample :
    Bank.new.transfer 1 1 5 "TRY" "1234"
        = (Except.error ("Hesap bulunamadı: " ++ toString 1), Bank.new) ∧
    (Bank.new.transfer 1 1 5 "TRY" "1234").1
        ≠ Except.error "Aynı hesaba transfer yapamazsınız" := by
  decide

/-- C3 amended: once the PIN gate passes (account A exists and the pin
matches), `transfer(A, A, amount, code, pin)` fails with SameAccount for
every amount and currency, leaving the bank unchanged. -/
theorem C3_same_account (b : Bank) (A : Nat) (acc : Account) (amount : Rat)
    (code pin : String)
    (hacc : mapLookup b.accounts A = some acc) (hpin : acc.pin = pin) :
    b.transfer A A amount code pin =
      (Except.error "Aynı hesaba transfer yapamazsınız", b) :=
  transfer_eq_same (verify_pin_eq_ok hacc hpin)

/-- C3 witness: a self-transfer with a matching pin, evaluated concretely. -/
theorem C3_same_account_witness :
    bankA.transfer 1 1 500 "USD" "1234" =
      (Except.error "Aynı hesaba transfer yapamazsınız", bankA) :=
  C3_same_account bankA 1 accA 500 "USD" "1234" (by decide) (by decide)

/-- C4: whenever transfer returns an error of any kind, the whole bank state
is unchanged — no balance, no transaction log and not `next_id` — because
every validation precedes the first mutation. -/
theorem C4_transfer_error_unchanged (b : Bank) (f t : Nat) (amount : Rat)
    (code pin e : String)
    (h : (b.transfer f t amount code pin).1 = Except.error e) :
    (b.transfer f t amount code pin).2 = b := by
  rcases transfer_spec b f t amount code pin with
    ⟨e', heq⟩ | ⟨fa, ta, _cur, fb, hft, hfa, hpin, hta, hcur, hfb, hge, heq⟩
  · rw [heq]
  · rw [heq] at h
    exact absurd h (by simp)

/-- C4 witness: a failing transfer from the fresh bank leaves it intact. -/
theorem C4_transfer_error_unchanged_witness :
    (Bank.new.transfer 1 2 50 "TRY" "1234").2 = Bank.new :=
  C4_transfer_error_unchanged Bank.new 1 2 50 "TRY" "1234"
    ("Hesap bulunamadı: " ++ toString 1) (by decide)

/-- C5: supplying a wrong PIN to any of get_balance, deposit, withdraw or
transfer on an existing account fails with InvalidPin and the bank state is
returned unchanged. -/
theorem C5_wrong_pin (b : Bank) (id : Nat) (acc : Account) (pin : String)
    (hacc : mapLookup b.accounts id = some acc) (hpin : acc.pin ≠ pin) :
    (∀ code, b.get_balance id code pin = Except.error "Geçersiz PIN") ∧
    (∀ amount code,
      b.deposit id amount code pin = (Except.error "Geçersiz PIN", b)) ∧
    (∀ amount code,
      b.withdraw id amount code pin = (Except.error "Geçersiz PIN", b)) ∧
    (∀ t amount code,
      b.transfer id t amount code pin = (Except.error "Geçersiz PIN", b)) := by
  have hv := verify_pin_eq_wrong hacc hpin
  exact ⟨fun code => get_balance_pin_gate hv,
    fun amount code => deposit_pin_gate hv,
    fun amount code => withdraw_pin_gate hv,
    fun t amount code => transfer_pin_gate hv⟩

/-- C5 witness: all four operations with a wrong pin on account 1. -/
theorem C5_wrong_pin_witness :
    bankA.get_balance 1 "TRY" "9999" = Except.error "Geçersiz PIN" ∧
    bankA.deposit 1 10 "TRY" "9999" = (Except.error "Geçersiz PIN", bankA) ∧
    bankA.withdraw 1 10 "TRY" "9999" = (Except.error "Geçersiz PIN", bankA) ∧
    bankA.transfer 1 2 10 "TRY" "9999" = (Except.error "Geçersiz PIN", bankA) := by
  have h := C5_wrong_pin bankA 1 accA "9999" (by decide) (by decide)
  exact ⟨h.1 "TRY", h.2.1 10 "TRY", h.2.2.1 10 "TRY", h.2.2.2 2 10 "TRY"⟩

/-- C6 counterexample: `create_account` accepts a negative opening balance,
so a state with a negative balance entry is reachable and the claim as
stated is false. -/
theorem C6_counterexample : ¬ (∀ b : Bank, Reachable b → bankNonneg b) := by
  intro hclaim
  have hreach : Reachable bankNeg :=
    Reachable.create Bank.new "Veli" (-1) "TRY" "0000" Reachable.new
  have h := hclaim bankNeg hreach 1
    (openAccount 1 "Veli" (-1) "TRY" "0000" tryCurrency) (by decide) "TRY"
  exact absurd h (by decide)

/-- C6 amended: in every state reachable from `Bank::new` by sequences in
which every opening balance, every deposited amount and every transferred
amount is non-negative (withdraw amounts unrestricted, its balance guard
suffices), every balance entry of every account is non-negative. -/
theorem C6_nonneg (b : Bank) (h : ReachableNN b) : bankNonneg b :=
  reachableNN_nonneg h

/-- C6 witness: the guarded reachability applied to the scenario bank. -/
theorem C6_nonneg_witness : bankNonneg bankA :=
  C6_nonneg bankA
    (ReachableNN.create Bank.new "Ayşe" 1000 "TRY" "1234" (by decide)
      ReachableNN.new)

/-- C7: in every reachable state, for every account and every currency it
holds a balance entry in, the signed sum of its Deposit / Withdraw /
TransferIn / TransferOut transactions in that currency plus the opening
balance recorded for that currency equals the balance entry. -/
theorem C7_ledger (b : Bank) (h : Reachable b) (id : Nat) (acc : Account)
    (hacc : mapLookup b.accounts id = some acc) (code : String) (v : Rat)
    (hbal : mapLookup acc.balances code = some v) :
    moveSum code acc.transactions + openingBalance code acc.transactions = v := by
  have hsum := reachable_ledger h id acc hacc code
  rw [hbal, Option.getD_some] at hsum
  rw [moveSum_add_openingBalance, hsum]

/-- C7 witness: the ledger equation on the scenario account. -/
theorem C7_ledger_witness :
    mapLookup bankA.accounts 1 = some accA ∧
    mapLookup accA.balances "TRY" = some 1000 ∧
    moveSum "TRY" accA.transactions + openingBalance "TRY" accA.transactions
      = 1000 := by
  refine ⟨by decide, by decide, ?_⟩
  exact C7_ledger bankA
    (Reachable.create Bank.new "Ayşe" 1000 "TRY" "1234" Reachable.new)
    1 accA (by decide) "TRY" 1000 (by decide)

/-- C8: create_account fails with InvalidCurrency exactly when the code is
unregistered and then changes nothing (next_id included); on success it
returns the current next_id, increments it by one, and installs an account
whose balances map is exactly the one entry `{code: initial_balance}` and
whose transaction list is exactly one OpenAccount entry with amount and
resulting balance equal to the initial balance; `next_id` starts at 1 and in
any reachable state every existing account id is below next_id, so ids are
never reused. -/
theorem C8_create_account (b : Bank) (owner : String) (init : Rat)
    (code pin : String) :
    (mapLookup b.currencies code = none →
      b.create_account owner init code pin =
        (Except.error ("Geçersiz para birimi: " ++ code), b)) ∧
    (∀ cur, mapLookup b.currencies code = some cur →
      b.create_account owner init code pin =
        (Except.ok b.next_id,
          { b with
              accounts := mapInsert b.accounts b.next_id
                (openAccount b.next_id owner init code pin cur)
              next_id := b.next_id + 1 })) ∧
    Bank.new.next_id = 1 ∧
    (Reachable b →
      ∀ id acc, mapLookup b.accounts id = some acc → id < b.next_id) :=
  ⟨fun hc => create_eq_invalid hc, fun _cur hc => create_eq_ok hc, rfl,
    fun hr => reachable_ids_lt hr⟩

/-- C8 witness: a rejected code leaves the fresh bank intact; the spec's
opening scenario yields id 1 and exactly the expected account. -/
theorem C8_create_account_witness :
    Bank.new.create_account "Ayşe" 1000 "XYZ" "1234" =
      (Except.error ("Geçersiz para birimi: " ++ "XYZ"), Bank.new) ∧
    Bank.new.create_account "Ayşe" 1000 "TRY" "1234" =
      (Except.ok 1,
        { Bank.new with
            accounts := mapInsert Bank.new.accounts 1
              (openAccount 1 "Ayşe" 1000 "TRY" "1234" tryCurrency)
            next_id := 2 }) :=
  ⟨(C8_create_account Bank.new "Ayşe" 1000 "XYZ" "1234").1 (by decide),
    (C8_create_account Bank.new "Ayşe" 1000 "TRY" "1234").2.1 tryCurrency
      (by decide)⟩

/-- C9: with a correct PIN on an existing account, get_balance on a currency
without a balance entry fails with CurrencyBalanceNotFound rather than
returning zero, and it returns a value exactly when the entry exists. -/
theorem C9_get_balance (b : Bank) (id : Nat) (acc : Account) (code pin : String)
    (hacc : mapLookup b.accounts id = some acc) (hpin : acc.pin = pin) :
    (mapLookup acc.balances code = none →
      b.get_balance id code pin =
        Except.error ("Bu para birimi için bakiye bulunamadı: " ++ code)) ∧
    (∀ v, b.get_balance id code pin = Except.ok v ↔
      mapLookup acc.balances code = some v) := by
  refine ⟨fun hb => get_balance_missing hacc hpin hb,
    fun v => ⟨?_, fun hb => get_balance_eq_ok hacc hpin hb⟩⟩
  intro h
  obtain ⟨acc', hacc', hpin', hbal'⟩ := get_balance_ok_elim h
  rw [hacc] at hacc'
  obtain rfl : acc = acc' := Option.some.inj hacc'
  exact hbal'

/-- C9 witness: the spec's USD query on the TRY-only account. -/
theorem C9_get_balance_witness :
    bankA.get_balance 1 "USD" "1234" =
      Except.error ("Bu para birimi için bakiye bulunamadı: " ++ "USD") :=
  (C9_get_balance bankA 1 accA "USD" "1234" (by decide) (by decide)).1
    (by decide)

/-- C10: the fresh bank's registry is exactly TRY, USD and EUR with their
metadata, and no public operation changes the registry, so every reachable
state carries this exact registry. -/
theorem C10_registry (b : Bank) (h : Reachable b) :
    b.currencies =
      [("TRY", { code := "TRY", name := "Türk Lirası", symbol := "₺" }),
       ("USD", { code := "USD", name := "Amerikan Doları", symbol := "$" }),
       ("EUR", { code := "EUR", name := "Euro", symbol := "€" })] ∧
    (∀ owner init code pin,
      (b.create_account owner init code pin).2.currencies = b.currencies) ∧
    (∀ id amount code pin,
      (b.deposit id amount code pin).2.currencies = b.currencies) ∧
    (∀ id amount code pin,
      (b.withdraw id amount code pin).2.currencies = b.currencies) ∧
    (∀ f t amount code pin,
      (b.transfer f t amount code pin).2.currencies = b.currencies) :=
  ⟨reachable_currencies h,
    fun owner init code pin => create_currencies b owner init code pin,
    fun id amount code pin => deposit_currencies b id amount code pin,
    fun id amount code pin => withdraw_currencies b id amount code pin,
    fun f t amount code pin => transfer_currencies b f t amount code pin⟩

/-- C10 witness: the registry of the scenario bank, evaluated concretely. -/
theorem C10_registry_witness :
    bankA.currencies =
      [("TRY", { code := "TRY", name := "Türk Lirası", symbol := "₺" }),
       ("USD", { code := "USD", name := "Amerikan Doları", symbol := "$" }),
       ("EUR", { code := "EUR", name := "Euro", symbol := "€" })] :=
  (C10_registry bankA
    (Reachable.create Bank.new "Ayşe" 1000 "TRY" "1234" Reachable.new)).1

end BankEngine
